import Mathlib

/-!
Verification development for the SearXNG engine-loader core
(`searx/engines/__init__.py`) and the offline language-catalog
aggregator (`searxng_extra/update/update_languages.py`).

The Python code manipulates dynamic attribute namespaces (engine modules)
and dictionaries; we embed those as association lists from attribute names
to a value type `Val`.  Durations (timeouts) are modelled as naturals.
External collaborators that are not part of the repository
(`searx.utils.load_module`, `searx.utils.match_language`, babel's locale
database) are passed in as function parameters; everything else is
translated from the source.
-/

namespace SearXNG

/-! ### String helpers

Python string primitives used by the source, implemented over `List Char`
(structural recursion, ASCII semantics) so that all definitions evaluate
inside the kernel. -/

/-- Python `'_' in s`. -/
def underscoreIn (s : String) : Bool := s.toList.contains '_'

/-- Python `s.lower()` (ASCII). -/
def pyLower (s : String) : String := (s.toList.map Char.toLower).asString

/-- Python `s.strip()`. -/
def pyStrip (s : String) : String :=
  ((s.toList.dropWhile Char.isWhitespace).reverse.dropWhile Char.isWhitespace).reverse.asString

/-- Python `s.startswith(p)`. -/
def pyStartsWith (s p : String) : Bool := p.toList.isPrefixOf s.toList

/-- Helper for `splitStr`. -/
def splitCharAux (sep : Char) : List Char → List Char → List (List Char)
  | [], acc => [acc.reverse]
  | c :: cs, acc =>
    if c == sep then acc.reverse :: splitCharAux sep cs [] else splitCharAux sep cs (c :: acc)

/-- Python `s.split(sep)` for a one-character separator. -/
def splitStr (sep : Char) (s : String) : List String :=
  (splitCharAux sep s.toList []).map List.asString

/-- Python `s.split('-')[0]`: the part before the first dash. -/
def shortCodeOf (s : String) : String := (s.toList.takeWhile (fun c => c != '-')).asString

/-- Python `s.split('_')[-1]`: the part after the last underscore. -/
def lastAfterUnderscore (s : String) : String :=
  ((s.toList.reverse.takeWhile (fun c => c != '_')).reverse).asString

/-- Python `s.startswith('_')`. -/
def startsWithUnderscore (s : String) : Bool :=
  match s.toList with
  | '_' :: _ => true
  | _ => false

/-- Helper for `pyTitle`: the boolean records whether the previous character
was alphabetic. -/
def pyTitleAux : Bool → List Char → List Char
  | _, [] => []
  | prevAlpha, c :: cs =>
    (if c.isAlpha then (if prevAlpha then c.toLower else c.toUpper) else c) ::
      pyTitleAux c.isAlpha cs

/-- Python `s.title()` (ASCII word boundaries). -/
def pyTitle (s : String) : String := (pyTitleAux false s.toList).asString

/-- Helper for `beforeParen`. -/
def beforeParenAux : List Char → List Char
  | ' ' :: '(' :: _ => []
  | c :: cs => c :: beforeParenAux cs
  | [] => []

/-- Python `s.split(' (')[0]`: the text before the first parenthetical
qualifier. -/
def beforeParen (s : String) : String := (beforeParenAux s.toList).asString

/-! ### Values and attribute namespaces -/

/-- One entry of the wikipedia language table used as the fallback name
source (`engines_languages['wikipedia'][code]['name']` and
`['english_name']`). -/
structure WikiEntry where
  name : String
  english_name : String
deriving Repr, DecidableEq

/-- The shapes of per-engine capability data found in
`ENGINES_LANGUAGES` / `engines_languages.json`: the structured
`engine_properties` object, a legacy flat list of codes, or a legacy flat
mapping keyed by code. -/
inductive LangData where
  | props (languages regions : List (String × String))
  | flatList (codes : List String)
  | flatDict (entries : List (String × WikiEntry))
deriving Repr, DecidableEq

/-- Python values stored in engine namespaces and configuration dicts. -/
inductive Val where
  | vStr (s : String)
  | vBool (b : Bool)
  | vNat (n : Nat)
  | vList (l : List String)
  | vDict (d : List (String × String))
  | vLang (d : LangData)
  | vNone
deriving Repr, DecidableEq

open Val

/-- An attribute namespace (an engine module's namespace, or a settings
dict): an association list from attribute name to value. -/
abbrev AttrMap := List (String × Val)

/-- Python `getattr(obj, k)` / `d.get(k)`: first binding of `k`. -/
def getAttr : AttrMap → String → Option Val
  | [], _ => none
  | (k, v) :: rest, key => if k = key then some v else getAttr rest key

/-- Python `setattr(obj, k, v)` / `d[k] = v`: replace in place or append. -/
def setAttr : AttrMap → String → Val → AttrMap
  | [], k, v => [(k, v)]
  | (k', v') :: rest, k, v =>
    if k' = k then (k, v) :: rest else (k', v') :: setAttr rest k v

/-- Python `hasattr(obj, k)`. -/
def hasAttr (m : AttrMap) (k : String) : Bool := (getAttr m k).isSome

/-- Fetch an attribute that is expected to be a string. -/
def getStr (m : AttrMap) (k : String) : Option String :=
  match getAttr m k with
  | some (vStr s) => some s
  | _ => none

/-- Python truthiness of a flat capability table (`if not supported_properties`):
the structured `engine_properties` dict is always non-empty, the legacy
shapes are falsy when empty. -/
def ldFalsy : LangData → Bool
  | .props _ _ => false
  | .flatList l => l.isEmpty
  | .flatDict d => d.isEmpty

/-- Python truthiness of a `Val`. -/
def isTruthy : Val → Bool
  | vStr s => s != ""
  | vBool b => b
  | vNat n => n != 0
  | vList l => !l.isEmpty
  | vDict d => !d.isEmpty
  | vLang d => !ldFalsy d
  | vNone => false

/-- Generic association-list lookup (Python dict indexing / membership). -/
def lookupA {V : Type} : List (String × V) → String → Option V
  | [], _ => none
  | (k, v) :: rest, key => if k = key then some v else lookupA rest key

/-- Python `d[k] = v` on a plain dict rendered as an association list. -/
def assocSet {V : Type} : List (String × V) → String → V → List (String × V)
  | [], k, v => [(k, v)]
  | (k', v') :: rest, k, v =>
    if k' = k then (k, v) :: rest else (k', v') :: assocSet rest k v

/-- Python `{**d1, **d2}`: `d2` overrides key-wise. -/
def dictMergeSnd (d1 d2 : List (String × String)) : List (String × String) :=
  d2.foldl (fun acc p => assocSet acc p.1 p.2) d1

/-- The engine's category list (`engine.categories`). -/
def getCats (engine : AttrMap) : List String :=
  match getAttr engine "categories" with
  | some (vList l) => l
  | _ => []

/-! ### Settings and global defaults (`searx/engines/__init__.py`) -/

/-- The deployment settings consulted by the loader: the pieces of
`settings['outgoing']` and `settings['categories_as_tabs']` that the
source reads. -/
structure Settings where
  request_timeout : Nat
  extra_proxy_timeout : Nat
  outgoing_using_tor_proxy : Bool
  categories_as_tabs : List String
deriving Repr, DecidableEq

/-- `ENGINE_DEFAULT_ARGS`, in source order; the timeout comes from
`settings['outgoing']['request_timeout']`. -/
def ENGINE_DEFAULT_ARGS (S : Settings) : List (String × Val) :=
  [("engine_type", vStr "online"),
   ("inactive", vBool false),
   ("disabled", vBool false),
   ("timeout", vNat S.request_timeout),
   ("shortcut", vStr "-"),
   ("categories", vList ["general"]),
   ("language_support", vBool false),
   ("paging", vBool false),
   ("safesearch", vBool false),
   ("time_range_support", vBool false),
   ("enable_http", vBool false),
   ("using_tor_proxy", vBool false),
   ("display_error_messages", vBool true),
   ("send_accept_language_header", vBool false),
   ("tokens", vList []),
   ("about", vDict [])]

/-- `OTHER_CATEGORY`. -/
def OTHER_CATEGORY : String := "other"

/-! ### Attribute merging (`update_engine_attributes`) -/

/-- One iteration of the first loop of `update_engine_attributes`: apply a
single `engine_data` field to the engine namespace.  A `categories` string
is split on commas and stripped; `about` is merged key-wise when the module
already has an `about` dict. -/
def apply_engine_param (engine : AttrMap) (p : String × Val) : AttrMap :=
  if p.1 = "categories" then
    match p.2 with
    | vStr s => setAttr engine "categories" (vList ((splitStr ',' s).map pyStrip))
    | v => setAttr engine "categories" v
  else if hasAttr engine "about" && decide (p.1 = "about") then
    match getAttr engine "about", p.2 with
    | some (vDict d1), vDict d2 => setAttr engine "about" (vDict (dictMergeSnd d1 d2))
    | _, v => setAttr engine "about" v
  else setAttr engine p.1 p.2

/-- `update_engine_attributes(engine, engine_data)`: first write every
configuration field, then fill each `ENGINE_DEFAULT_ARGS` entry that is
still absent (the source's `copy.deepcopy` is invisible in a pure model). -/
def update_engine_attributes (S : Settings) (engine : AttrMap) (engine_data : AttrMap) :
    AttrMap :=
  let engine := engine_data.foldl apply_engine_param engine
  (ENGINE_DEFAULT_ARGS S).foldl
    (fun eng p => if hasAttr eng p.1 then eng else setAttr eng p.1 p.2) engine

/-! ### Language capability resolution (`set_language_attributes`) -/

/-- Locate the capability data for an engine in `ENGINES_LANGUAGES`: first
by the configured engine name, then by the provider-module identity
(`engine.engine`). -/
def lookupLangData (EL : List (String × LangData)) (engine : AttrMap) : Option LangData :=
  match getStr engine "name" with
  | some n =>
    match lookupA EL n with
    | some d => some d
    | none =>
      match getStr engine "engine" with
      | some en => lookupA EL en
      | none => none
  | none =>
    match getStr engine "engine" with
    | some en => lookupA EL en
    | none => none

/-- `len(...)` of a legacy flat capability table. -/
def ldLen : LangData → Nat
  | .props _ _ => 0
  | .flatList l => l.length
  | .flatDict d => d.length

/-- Python `c in supported_languages` for the legacy flat shapes. -/
def ldHasCode (d : LangData) (c : String) : Bool :=
  match d with
  | .flatList l => decide (c ∈ l)
  | .flatDict m => decide (c ∈ m.map Prod.fst)
  | .props _ _ => false

/-- Narrowing of a flat capability table to the single configured
`language` value. -/
def ldNarrow (d : LangData) (c : String) : LangData :=
  match d with
  | .flatDict m => .flatDict (m.filter (fun p => decide (p.1 = c)))
  | .flatList _ => .flatList [c]
  | .props a b => .props a b

/-- The adapter-native codes of a legacy flat capability table (list
elements, or mapping keys). -/
def ldCodesFlat : LangData → List String
  | .flatList l => l
  | .flatDict m => m.map Prod.fst
  | .props _ _ => []

/-- The `ValueError` message raised when the configured `language` is not
in the engine's supported set. -/
def valueErrorMsg (name lang : String) : String :=
  "settings.yml - engine: \x27" ++ name ++ "\x27 / language: \x27" ++ lang ++
    "\x27 not supported"

/-- The engine's `language_aliases` dict (empty when absent or malformed). -/
def getAliasesD (engine : AttrMap) : List (String × String) :=
  match getAttr engine "language_aliases" with
  | some (vDict d) => d
  | _ => []

/-- Ensure `engine.language_aliases` exists (`if not hasattr ...`). -/
def ensureAliases (engine : AttrMap) : AttrMap :=
  if hasAttr engine "language_aliases" then engine
  else setAttr engine "language_aliases" (vDict [])

/-- The alias-discovery loop at the end of `set_language_attributes`:
`matchLang` stands for `searx.utils.match_language (.., BABEL_LANGS,
fallback=None)`, an external collaborator passed as a parameter. -/
def aliasLoop (matchLang : String → Option String) (supported : LangData)
    (engine : AttrMap) : AttrMap :=
  (ldCodesFlat supported).foldl
    (fun eng engine_lang =>
      match matchLang engine_lang with
      | some iso_lang =>
        if iso_lang ≠ engine_lang ∧ pyStartsWith engine_lang iso_lang = false ∧
            ldHasCode supported iso_lang = false then
          setAttr eng "language_aliases"
            (vDict (assocSet (getAliasesD eng) iso_lang engine_lang))
        else eng
      | none => eng)
    engine

/-- `set_language_attributes(engine)`: populate `supported_properties` /
`supported_languages`, `language_support` and `language_aliases` from the
`ENGINES_LANGUAGES` table.  The single-language narrowing raises
`ValueError` (rendered as `Except.error`) when the configured value is not
supported; a non-string `language` value is likewise never a member of the
supported set and raises. -/
def set_language_attributes (EL : List (String × LangData))
    (matchLang : String → Option String) (engine : AttrMap) : Except String AttrMap :=
  match lookupLangData EL engine with
  | none => .ok engine
  | some sp =>
    if ldFalsy sp then .ok engine
    else
      match sp with
      | .props langs regions =>
        let engine := setAttr engine "supported_properties" (vLang (.props langs regions))
        let engine := setAttr engine "language_support"
          (vNat (if langs.length ≠ 0 then langs.length else regions.length))
        .ok engine
      | flat =>
        let engine := setAttr engine "supported_languages" (vLang flat)
        let engine := setAttr engine "language_support" (vBool (decide (0 < ldLen flat)))
        match getAttr engine "language" with
        | some (vStr l) =>
          if ldHasCode flat l then
            let narrowed := ldNarrow flat l
            let engine := setAttr engine "supported_languages" (vLang narrowed)
            .ok (aliasLoop matchLang narrowed (ensureAliases engine))
          else
            .error (valueErrorMsg ((getStr engine "name").getD "") l)
        | some _ => .error (valueErrorMsg ((getStr engine "name").getD "") "")
        | none => .ok (aliasLoop matchLang flat (ensureAliases engine))

/-! ### Tor rewrite, activity and validation -/

/-- `using_tor_proxy(engine)`. -/
def using_tor_proxy (S : Settings) (engine : AttrMap) : Bool :=
  S.outgoing_using_tor_proxy || isTruthy ((getAttr engine "using_tor_proxy").getD vNone)

/-- `update_attributes_for_tor(engine)`: rewrite `search_url` to the onion
base plus search path and extend the timeout by the extra proxy margin. -/
def update_attributes_for_tor (S : Settings) (engine : AttrMap) : AttrMap :=
  if using_tor_proxy S engine && hasAttr engine "onion_url" then
    let onion := (getStr engine "onion_url").getD ""
    let path := (getStr engine "search_path").getD ""
    let engine := setAttr engine "search_url" (vStr (onion ++ path))
    match getAttr engine "timeout" with
    | some (vNat t) => setAttr engine "timeout" (vNat (t + S.extra_proxy_timeout))
    | _ => engine
  else engine

/-- `is_missing_required_attributes(engine)`: some non-underscore attribute
is `None`. -/
def is_missing_required_attributes (engine : AttrMap) : Bool :=
  engine.any (fun p => !startsWithUnderscore p.1 && decide (p.2 = vNone))

/-- `is_engine_active(engine)`. -/
def is_engine_active (S : Settings) (engine : AttrMap) : Bool :=
  if getAttr engine "inactive" = some (vBool true) then false
  else if "onions" ∈ getCats engine ∧ using_tor_proxy S engine = false then false
  else true

/-! ### Module loading and `load_engine` -/

/-- The exception classes relevant to `load_engine`'s two `except` clauses. -/
inductive PyExc where
  | syntaxError
  | keyboardInterrupt
  | systemExit
  | systemError
  | importError
  | runtimeError
  | otherExc (name : String)
deriving Repr, DecidableEq

/-- The first `except` clause of `load_engine`: the fatal class
`(SyntaxError, KeyboardInterrupt, SystemExit, SystemError, ImportError,
RuntimeError)`. -/
def isFatalExc : PyExc → Bool
  | .syntaxError => true
  | .keyboardInterrupt => true
  | .systemExit => true
  | .systemError => true
  | .importError => true
  | .runtimeError => true
  | .otherExc _ => false

/-- Outcome of `load_engine`: a validated engine namespace, `None`
(adapter skipped), `sys.exit(1)` (process abort), or an uncaught Python
exception propagating out of the function. -/
inductive LoadResult where
  | ok (engine : AttrMap)
  | skip
  | fatal
  | exn (msg : String)
deriving Repr, DecidableEq

/-- Appending the synthetic `"other"` category when no engine category is a
configured tab category (the last step of `load_engine`). -/
def append_other_category (tabs : List String) (cats : List String) : List String :=
  if cats.any (fun c => decide (c ∈ tabs)) then cats else cats ++ [OTHER_CATEGORY]

/-- `load_engine(engine_data)`.  `loadModule` stands for
`searx.utils.load_module` (external).  The second component of the result
renders the source's in-place mutation of `engine_data`: the lowercased
`name` write-back, and — because `engine.categories` aliases the
configuration's list when `categories` is given as a list — the appended
`"other"` entry.  `set_loggers` only wires up loggers and is omitted. -/
def load_engine (S : Settings) (EL : List (String × LangData))
    (matchLang : String → Option String) (loadModule : String → Except PyExc AttrMap)
    (engine_data : AttrMap) : LoadResult × AttrMap :=
  match getAttr engine_data "name" with
  | some (vStr name0) =>
    if underscoreIn name0 then (.skip, engine_data)
    else
      let engine_data :=
        if pyLower name0 ≠ name0 then setAttr engine_data "name" (vStr (pyLower name0))
        else engine_data
      match getAttr engine_data "engine" with
      | some (vStr engine_module) =>
        (match loadModule engine_module with
         | .error e => if isFatalExc e then (.fatal, engine_data) else (.skip, engine_data)
         | .ok engine_mod =>
           let engine := update_engine_attributes S engine_mod engine_data
           match set_language_attributes EL matchLang engine with
           | .error msg => (.exn msg, engine_data)
           | .ok engine =>
             let engine := update_attributes_for_tor S engine
             if is_engine_active S engine = false then (.skip, engine_data)
             else if is_missing_required_attributes engine then (.skip, engine_data)
             else
               let cats := getCats engine
               if cats.any (fun c => decide (c ∈ S.categories_as_tabs)) then
                 (.ok engine, engine_data)
               else
                 let newCats := append_other_category S.categories_as_tabs cats
                 let engine := setAttr engine "categories" (vList newCats)
                 let engine_data :=
                   match getAttr engine_data "categories" with
                   | some (vList _) => setAttr engine_data "categories" (vList newCats)
                   | _ => engine_data
                 (.ok engine, engine_data))
      | _ => (.skip, engine_data)
  | _ => (.skip, engine_data)

/-! ### The registry (`register_engine`, `load_engines`) -/

/-- The three process-wide tables: `engines`, `engine_shortcuts`,
`categories`. -/
structure RegistryState where
  engines : List (String × AttrMap)
  engine_shortcuts : List (String × String)
  categories : List (String × List AttrMap)
deriving Repr, DecidableEq

/-- `categories.setdefault(cat, []).append(engine)`. -/
def catAppend : List (String × List AttrMap) → String → AttrMap →
    List (String × List AttrMap)
  | [], c, e => [(c, [e])]
  | (c', l) :: rest, c, e =>
    if c' = c then (c', l ++ [e]) :: rest else (c', l) :: catAppend rest c e

/-- `register_engine(engine)`: `none` renders `sys.exit(1)` on an ambiguous
name or shortcut.  Note the source inserts the name before checking the
shortcut, but aborts before completing the registration either way. -/
def register_engine (st : RegistryState) (engine : AttrMap) : Option RegistryState :=
  let name := (getStr engine "name").getD ""
  if name ∈ st.engines.map Prod.fst then none
  else
    let engines' := st.engines ++ [(name, engine)]
    let shortcut := (getStr engine "shortcut").getD ""
    if shortcut ∈ st.engine_shortcuts.map Prod.fst then none
    else
      some
        { engines := engines',
          engine_shortcuts := st.engine_shortcuts ++ [(shortcut, name)],
          categories := (getCats engine).foldl (fun cs c => catAppend cs c engine)
            st.categories }

/-- Outcome of `load_engines`: the rebuilt registry, a `sys.exit(1)` abort,
or an uncaught exception propagating out of the loop. -/
inductive LoadOutcome where
  | ok (st : RegistryState)
  | exited
  | uncaught (msg : String)
deriving Repr, DecidableEq

/-- The loop of `load_engines` over the configured engine list. -/
def load_engines_aux (S : Settings) (EL : List (String × LangData))
    (matchLang : String → Option String) (loadModule : String → Except PyExc AttrMap) :
    List AttrMap → RegistryState → LoadOutcome
  | [], st => .ok st
  | d :: rest, st =>
    match (load_engine S EL matchLang loadModule d).1 with
    | .ok e =>
      match register_engine st e with
      | some st' => load_engines_aux S EL matchLang loadModule rest st'
      | none => .exited
    | .skip => load_engines_aux S EL matchLang loadModule rest st
    | .fatal => .exited
    | .exn m => .uncaught m

/-- The cleared registry `load_engines` starts from: empty `engines` and
`engine_shortcuts`, `categories = {'general': []}`. -/
def initialRegistry : RegistryState :=
  { engines := [], engine_shortcuts := [], categories := [("general", [])] }

/-- `load_engines(engine_list)`. -/
def load_engines (S : Settings) (EL : List (String × LangData))
    (matchLang : String → Option String) (loadModule : String → Except PyExc AttrMap)
    (engine_list : List AttrMap) : LoadOutcome :=
  load_engines_aux S EL matchLang loadModule engine_list initialRegistry

/-! ### Cross-adapter aggregation (`searxng_extra/update/update_languages.py`)

Babel's locale database is external; `Locale.parse` is passed in as a
parameter returning a `LocaleInfo`, which carries the pieces of the babel
`Locale` object the script reads. -/

/-- The result of `babel.Locale.parse(code, sep='-')` when it succeeds:
language and optional territory subtags, `get_language_name()`,
`english_name` and `get_territory_name()` (the latter is `None` when babel
has no territory name). -/
structure LocaleInfo where
  language : String
  territory : Option String
  get_language_name : String
  english_name : String
  get_territory_name : Option String
deriving Repr, DecidableEq

/-- One per-country sub-entry of the aggregated language table.
`country_name` is `some ""` for the initial `''` and `none` for a Python
`None` returned by babel. -/
structure CountryEntry where
  country_name : Option String
  counter : List String
deriving Repr, DecidableEq

/-- One entry of the aggregated language table, keyed by short code. The
`counter` sets are rendered as duplicate-free lists in insertion order. -/
structure LangEntry where
  name : Option String
  english_name : Option String
  counter : List String
  countries : List (String × CountryEntry)
deriving Repr, DecidableEq

/-- The aggregated language table built by `join_language_lists`. -/
abbrev LangTable := List (String × LangEntry)

/-- Python `set.add`. -/
def addToSet (x : String) (l : List String) : List String :=
  if x ∈ l then l else l ++ [x]

/-- Update the entry at a key of the language table in place. -/
def updateEntry (tbl : LangTable) (k : String) (f : LangEntry → LangEntry) : LangTable :=
  tbl.map (fun p => if p.1 = k then (p.1, f p.2) else p)

/-- Update a country sub-entry in place. -/
def updateCountry (cs : List (String × CountryEntry)) (k : String)
    (f : CountryEntry → CountryEntry) : List (String × CountryEntry) :=
  cs.map (fun p => if p.1 = k then (p.1, f p.2) else p)

/-- Errors with which `join_language_lists` can fail: a `KeyError`
(a missing engine, or the unconditional `engines_languages['wikipedia']`
index), or a `TypeError` from string-indexing non-dict wikipedia data. -/
inductive JoinErr where
  | keyError (key : String)
  | typeError
deriving Repr, DecidableEq

/-- The codes an engine's fetched capability data contributes (the
`engine_codes` flattening at the top of the `join_language_lists` loop):
for structured data the keys of `regions`, for legacy data the
mapping keys or list elements. -/
def ldCodes : LangData → List String
  | .props _ regions => regions.map Prod.fst
  | .flatList l => l
  | .flatDict d => d.map Prod.fst

/-- The wikipedia name fallback: `short_code in engines_languages['wikipedia']`
followed by the `['name']` / `['english_name']` lookups.  On non-dict
wikipedia data a successful membership test would be followed by a string
index into a list, a `TypeError`. -/
def wikiNames : LangData → String → Except JoinErr (Option String × Option String)
  | .flatDict d, short_code =>
    match lookupA d short_code with
    | some e => .ok (some e.name, some e.english_name)
    | none => .ok (none, none)
  | .flatList l, short_code =>
    if short_code ∈ l then .error .typeError else .ok (none, none)
  | .props _ _, short_code =>
    if short_code ∈ ["type", "regions", "languages"] then .error .typeError
    else .ok (none, none)

/-- The body of the inner `for lang_code in engine_codes` loop of
`join_language_lists`. -/
def join_one_code (parse : String → Option LocaleInfo)
    (engines_languages : List (String × LangData)) (engine : AttrMap)
    (engine_name : String) (tbl : LangTable) (code0 : String) :
    Except JoinErr LangTable := do
  let aliases := getAliasesD engine
  let lang_code :=
    if aliases.any (fun p => decide (p.2 = code0)) then
      (((aliases.find? (fun p => decide (p.2 = code0))).map Prod.fst).getD code0)
    else code0
  let locale := parse lang_code
  let lang_code :=
    match locale with
    | some li =>
      match li.territory with
      | some t => li.language ++ "-" ++ t
      | none => lang_code
    | none => lang_code
  let short_code := shortCodeOf lang_code
  let tbl ←
    if (lookupA tbl short_code).isSome then pure tbl
    else do
      let names ←
        match locale with
        | some li =>
          pure (some (pyTitle li.get_language_name), some (beforeParen li.english_name))
        | none =>
          match lookupA engines_languages "wikipedia" with
          | none => throw (JoinErr.keyError "wikipedia")
          | some wd => wikiNames wd short_code
      pure (tbl ++ [(short_code,
        { name := names.1, english_name := names.2, counter := [], countries := [] })])
  let tbl :=
    if lang_code ≠ short_code then
      updateEntry tbl short_code (fun e =>
        if (lookupA e.countries lang_code).isSome then e
        else
          let country_name : Option String :=
            match locale with
            | some li => li.get_territory_name
            | none => some ""
          { e with countries :=
              e.countries ++ [(lang_code, { country_name := country_name, counter := [] })] })
    else tbl
  let tbl := updateEntry tbl short_code (fun e =>
    { e with counter := addToSet engine_name e.counter })
  let tbl :=
    if lang_code ≠ short_code then
      updateEntry tbl short_code (fun e =>
        { e with countries := updateCountry e.countries lang_code (fun c =>
            { c with counter := addToSet engine_name c.counter }) })
    else tbl
  pure tbl

/-- `join_language_lists(engines_languages)`: merge every engine's codes
into one table.  `engines[engine_name]` raises `KeyError` for an
unregistered engine. -/
def join_language_lists (parse : String → Option LocaleInfo)
    (engines : List (String × AttrMap)) (engines_languages : List (String × LangData)) :
    Except JoinErr LangTable :=
  engines_languages.foldlM
    (fun tbl p =>
      match lookupA engines p.1 with
      | none => throw (JoinErr.keyError p.1)
      | some engine => (ldCodes p.2).foldlM (join_one_code parse engines_languages engine p.1) tbl)
    []

/-! ### Catalog filtering (`filter_language_list`) -/

/-- The predicate selecting "main" engines: categorized `general`, exposing
a truthy `supported_languages`, and not disabled. -/
def is_main_engine (p : String × AttrMap) : Bool :=
  decide ("general" ∈ getCats p.2) && hasAttr p.2 "supported_languages" &&
    isTruthy ((getAttr p.2 "supported_languages").getD vNone) &&
    !isTruthy ((getAttr p.2 "disabled").getD vNone)

/-- The `main_engines` list of `filter_language_list`. -/
def main_engines (engines : List (String × AttrMap)) : List String :=
  (engines.filter is_main_engine).map Prod.fst

/-- The language-level filter of `filter_language_list`: keep a language
when enough engines cover it, or when every main engine covers it. -/
def filtered_languages (min_engines_per_lang : Nat) (mains : List String)
    (all_languages : LangTable) : LangTable :=
  all_languages.filter (fun p =>
    decide (min_engines_per_lang ≤ p.2.counter.length) ||
      mains.all (fun m => decide (m ∈ p.2.counter)))

/-- One emitted catalog entry (`_copy_lang_data`): the `country_name` key
is only present when the passed value is truthy. -/
structure FilteredEntry where
  name : Option String
  english_name : Option String
  country_name : Option String
deriving Repr, DecidableEq

/-- `_copy_lang_data(lang, country_name)`, reading the names from the
language's aggregated entry. -/
def copy_lang_data (entry : LangEntry) (cn : Option String) : FilteredEntry :=
  { name := entry.name, english_name := entry.english_name,
    country_name :=
      match cn with
      | some s => if s ≠ "" then some s else none
      | none => none }

/-- The likely-region derivation from babel's `likely_subtags` data
(`get_global('likely_subtags').get(lang)` followed by `split('_')[-1]`).
An empty-string subtag value is falsy in the source's `if subtags:` test. -/
def likely_lang_country (likely : String → Option String) (lang : String) :
    Option String :=
  match likely lang with
  | some subtags =>
    if subtags = "" then none
    else
      let country_code := lastAfterUnderscore subtags
      if country_code.length = 2 then some (lang ++ "-" ++ country_code) else none
  | none => none

/-- The per-language country phase of `filter_language_list`: keep country
variants with enough engines; with more than one survivor also keep the
bare language; with none, fall back to the likely region or the bare
language. -/
def filter_countries_for_lang (min_engines_per_country : Nat)
    (likely : String → Option String) (lang : String) (entry : LangEntry) :
    List (String × FilteredEntry) :=
  let fc0 := (entry.countries.filter
      (fun p => decide (min_engines_per_country ≤ p.2.counter.length))).map
      (fun p => (p.1, copy_lang_data entry p.2.country_name))
  let fc1 := if 1 < fc0.length then assocSet fc0 lang (copy_lang_data entry none) else fc0
  if fc1.isEmpty then
    match likely_lang_country likely lang with
    | some lang_country => [(lang_country, copy_lang_data entry none)]
    | none => [(lang, copy_lang_data entry none)]
  else fc1

/-- Python `dict.update` with the phase output of one language. -/
def updateMany (acc : List (String × FilteredEntry))
    (new : List (String × FilteredEntry)) : List (String × FilteredEntry) :=
  new.foldl (fun a p => assocSet a p.1 p.2) acc

/-- `filter_language_list(all_languages)`.  The source fixes
`min_engines_per_lang = 12` and `min_engines_per_country = 7` as local
constants; they are tunable thresholds and appear here as parameters.
`likely` stands for babel's `get_global('likely_subtags').get`. -/
def filter_language_list (min_engines_per_lang min_engines_per_country : Nat)
    (engines : List (String × AttrMap)) (likely : String → Option String)
    (all_languages : LangTable) : List (String × FilteredEntry) :=
  let mains := main_engines engines
  let fl := filtered_languages min_engines_per_lang mains all_languages
  fl.foldl
    (fun acc p =>
      updateMany acc (filter_countries_for_lang min_engines_per_country likely p.1 p.2))
    []

/-! ### Concrete instances exercised by the claim theorems -/

/-- A small deployment configuration: default timeout 3, no Tor, the
single tab category `general`. -/
def S0 : Settings :=
  { request_timeout := 3, extra_proxy_timeout := 0,
    outgoing_using_tor_proxy := false, categories_as_tabs := ["general"] }

/-- A `match_language` stub that never matches. -/
def mlNone : String → Option String := fun _ => none

/-- Project the engine namespace out of a `LoadResult`. -/
def loadedEngine : LoadResult → Option AttrMap
  | .ok e => some e
  | _ => none

/-- A provider module declaring its own default `paging = True`. -/
def modPagingTrue : AttrMap := [("paging", vBool true)]

/-- A module loader resolving every module to `modPagingTrue`. -/
def lmPaging : String → Except PyExc AttrMap := fun _ => .ok modPagingTrue

/-- A module loader resolving every module to an empty namespace. -/
def lmEmptyMod : String → Except PyExc AttrMap := fun _ => .ok []

/-- A minimal valid adapter configuration. -/
def cfgPlain : AttrMap := [("name", vStr "dummy"), ("engine", vStr "dummy")]

/-- Capability data for the engine named `bad`: flat list `["en"]`. -/
def elBad : List (String × LangData) := [("bad", .flatList ["en"])]

/-- An adapter with legacy flat capability data declaring a fixed
`language` value that is not in its supported set. -/
def cfgBadLanguage : AttrMap :=
  [("name", vStr "bad"), ("engine", vStr "bad"), ("language", vStr "xx")]

/-- A well-formed adapter configuration following `cfgBadLanguage` in the
engine list. -/
def cfgGood : AttrMap := [("name", vStr "good"), ("engine", vStr "good")]

/-- An adapter configuration that already declares the `other` category. -/
def cfgCatsOther : AttrMap :=
  [("name", vStr "dummy"), ("engine", vStr "dummy"), ("categories", vList ["other"])]

/-- An adapter configuration with the non-tab category `news`. -/
def cfgCatsNews : AttrMap :=
  [("name", vStr "dummy"), ("engine", vStr "dummy"), ("categories", vList ["news"])]

/-- Locale data for the C7 scenario: `de`, `de-AT`, `de-DE`. -/
def parseDe : String → Option LocaleInfo := fun s =>
  if s = "de" then
    some { language := "de", territory := none, get_language_name := "deutsch",
           english_name := "German", get_territory_name := none }
  else if s = "de-AT" then
    some { language := "de", territory := some "AT", get_language_name := "deutsch",
           english_name := "Austrian German (Austria)",
           get_territory_name := some "Oesterreich" }
  else if s = "de-DE" then
    some { language := "de", territory := some "DE", get_language_name := "deutsch",
           english_name := "German (Germany)", get_territory_name := some "Deutschland" }
  else none

/-- A registered engine namespace with no language aliases. -/
def engNoAliases (n : String) : String × AttrMap :=
  (n, [("name", vStr n), ("language_aliases", vDict [])])

/-- The three registered adapters of the C7 scenario. -/
def enginesDe : List (String × AttrMap) :=
  [engNoAliases "e1", engNoAliases "e2", engNoAliases "e3"]

/-- The fetched capability data of the C7 scenario: the three adapters
report `{"de","de-AT"}`, `{"de"}` and `{"de-DE"}`. -/
def elDe : List (String × LangData) :=
  [("e1", .flatList ["de", "de-AT"]), ("e2", .flatList ["de"]),
   ("e3", .flatList ["de-DE"])]

/-- Likely-subtags data mapping `de` to `de_Latn_DE`. -/
def likelyDe : String → Option String :=
  fun s => if s = "de" then some "de_Latn_DE" else none

/-- The aggregated table of the C7 scenario. -/
def tableDe : LangTable := (join_language_lists parseDe enginesDe elDe).toOption.getD []

/-- An engine namespace carrying only an empty alias table (used by the
C10 theorems). -/
def engAliasEmpty : AttrMap := [("language_aliases", vDict [])]

/-- The aggregated entry for `de` in the C7 scenario. -/
def entryDe : LangEntry :=
  (lookupA tableDe "de").getD
    { name := none, english_name := none, counter := [], countries := [] }

/-- The registered engine names of a successful `load_engines` outcome. -/
def outcomeEngineNames : LoadOutcome → Option (List String)
  | .ok st => some (st.engines.map Prod.fst)
  | _ => none

/-- The registry of a successful `load_engines` outcome. -/
def outcomeRegistry : LoadOutcome → RegistryState
  | .ok st => st
  | _ => initialRegistry

/-- A registry already holding an engine named `dummy`. -/
def regDupName : RegistryState :=
  { engines := [("dummy", [])], engine_shortcuts := [], categories := [("general", [])] }

/-! ### Basic lemmas about attribute namespaces -/

theorem getAttr_setAttr_self (m : AttrMap) (k : String) (v : Val) :
    getAttr (setAttr m k v) k = some v := by
  induction m with
  | nil => simp [setAttr, getAttr]
  | cons p rest ih =>
    by_cases h : p.1 = k
    · simp [setAttr, getAttr, h]
    · simp [setAttr, getAttr, h, ih]

theorem getAttr_setAttr_ne (m : AttrMap) (k k' : String) (v : Val) (h : k' ≠ k) :
    getAttr (setAttr m k v) k' = getAttr m k' := by
  induction m with
  | nil => simp [setAttr, getAttr, Ne.symm h]
  | cons p rest ih =>
    by_cases hp : p.1 = k
    · simp [setAttr, getAttr, hp, Ne.symm h, h]
    · by_cases hk : p.1 = k'
      · simp [setAttr, getAttr, hp, hk, h]
      · simp [setAttr, getAttr, hp, hk, ih]

theorem getAttr_none_not_mem (m : AttrMap) (k : String) (h : getAttr m k = none) :
    k ∉ m.map Prod.fst := by
  induction m with
  | nil => simp
  | cons p rest ih =>
    by_cases hp : p.1 = k
    · simp [getAttr, hp] at h
    · simp [getAttr, hp] at h
      simpa [hp, Ne.symm hp] using ih h

theorem assocSet_not_mem_append {V : Type} (l : List (String × V)) (k : String) (v : V)
    (h : k ∉ l.map Prod.fst) : assocSet l k v = l ++ [(k, v)] := by
  induction l with
  | nil => simp [assocSet]
  | cons p rest ih =>
    have h1 : p.1 ≠ k := by
      intro he
      exact h (by simp [he])
    have h2 : k ∉ rest.map Prod.fst := by
      intro he
      exact h (by simp [he])
    simp [assocSet, h1, ih h2]

/-! ### Merge-precedence lemmas (`update_engine_attributes`) -/

theorem apply_engine_param_ne (m : AttrMap) (p : String × Val) (attr : String)
    (h : attr ≠ p.1) : getAttr (apply_engine_param m p) attr = getAttr m attr := by
  unfold apply_engine_param
  by_cases hc : p.1 = "categories"
  · have : attr ≠ "categories" := fun he => h (he.trans hc.symm)
    simp only [hc, if_pos rfl]
    cases p.2 <;> simp [getAttr_setAttr_ne _ _ _ _ this]
  · by_cases ha : hasAttr m "about" && decide (p.1 = "about")
    · have ha' : p.1 = "about" := by
        simp at ha
        exact ha.2
      have hne : attr ≠ "about" := fun he => h (he.trans ha'.symm)
      simp only [hc, if_neg (fun he => hc he), ha, if_pos rfl]
      cases hg : getAttr m "about" with
      | none => cases p.2 <;> simp [getAttr_setAttr_ne _ _ _ _ hne]
      | some w => cases w <;> cases p.2 <;> simp [getAttr_setAttr_ne _ _ _ _ hne]
    · simp [hc, ha, getAttr_setAttr_ne _ _ _ _ h]

theorem foldl_apply_not_mem (data : AttrMap) (m : AttrMap) (attr : String)
    (h : attr ∉ data.map Prod.fst) :
    getAttr (data.foldl apply_engine_param m) attr = getAttr m attr := by
  induction data generalizing m with
  | nil => simp
  | cons p rest ih =>
    have h1 : attr ≠ p.1 := by
      intro he
      exact h (by simp [he])
    have h2 : attr ∉ rest.map Prod.fst := by
      intro he
      exact h (by simp [he])
    simp only [List.foldl_cons]
    rw [ih _ h2, apply_engine_param_ne _ _ _ h1]

theorem foldl_apply_mem (data : AttrMap) (m : AttrMap) (attr : String) (v : Val)
    (hnd : (data.map Prod.fst).Nodup) (hv : getAttr data attr = some v)
    (hc : attr ≠ "categories") (ha : attr ≠ "about") :
    getAttr (data.foldl apply_engine_param m) attr = some v := by
  induction data generalizing m with
  | nil => simp [getAttr] at hv
  | cons p rest ih =>
    simp only [List.map_cons, List.nodup_cons] at hnd
    by_cases hp : p.1 = attr
    · have hv' : v = p.2 := by
        simp [getAttr, hp] at hv
        exact hv.symm
      have hrest : attr ∉ rest.map Prod.fst := hp ▸ hnd.1
      simp only [List.foldl_cons]
      rw [foldl_apply_not_mem _ _ _ hrest]
      have hstep : getAttr (apply_engine_param m p) attr = some p.2 := by
        unfold apply_engine_param
        rw [if_neg (fun he => hc (hp.symm.trans he))]
        have : (hasAttr m "about" && decide (p.1 = "about")) = false := by
          have : (p.1 = "about") = False := by
            simp [hp]
            exact fun he => ha (he ▸ rfl)
          simp [this]
        rw [if_neg (by simp [this])]
        exact hp ▸ getAttr_setAttr_self m p.1 p.2
      rw [hstep, hv']
    · have hv' : getAttr rest attr = some v := by
        simpa [getAttr, hp] using hv
      simp only [List.foldl_cons]
      exact ih _ hnd.2 hv'

theorem foldl_defaults_keep (defs : List (String × Val)) (m : AttrMap) (attr : String)
    (v : Val) (hv : getAttr m attr = some v) :
    getAttr (defs.foldl
      (fun eng p => if hasAttr eng p.1 then eng else setAttr eng p.1 p.2) m) attr =
      some v := by
  induction defs generalizing m with
  | nil => simpa
  | cons p rest ih =>
    simp only [List.foldl_cons]
    by_cases hp : p.1 = attr
    · have : hasAttr m p.1 = true := by simp [hasAttr, hp, hv]
      rw [if_pos this]
      exact ih _ hv
    · by_cases hh : hasAttr m p.1
      · rw [if_pos hh]
        exact ih _ hv
      · rw [if_neg hh]
        exact ih _ (by rw [getAttr_setAttr_ne _ _ _ _ (fun he => hp he.symm)]; exact hv)

theorem foldl_defaults_fill (defs : List (String × Val)) (m : AttrMap) (attr : String)
    (hv : getAttr m attr = none) :
    getAttr (defs.foldl
      (fun eng p => if hasAttr eng p.1 then eng else setAttr eng p.1 p.2) m) attr =
      lookupA defs attr := by
  induction defs generalizing m with
  | nil => simpa [lookupA]
  | cons p rest ih =>
    simp only [List.foldl_cons]
    by_cases hp : p.1 = attr
    · have hh : hasAttr m p.1 = false := by simp [hasAttr, hp, hv]
      rw [if_neg (by simp [hh])]
      have : getAttr (setAttr m p.1 p.2) attr = some p.2 := hp ▸ getAttr_setAttr_self m p.1 p.2
      rw [foldl_defaults_keep _ _ _ _ this]
      simp [lookupA, hp]
    · have step : getAttr (if hasAttr m p.1 then m else setAttr m p.1 p.2) attr = none := by
        by_cases hh : hasAttr m p.1
        · simpa [hh]
        · rw [if_neg hh, getAttr_setAttr_ne _ _ _ _ (fun he => hp he.symm)]
          exact hv
      rw [ih _ step]
      simp [lookupA, hp]

/-! ### C1 : merge precedence of attribute values -/

/-- C1 (counterexample): the claim states that for an attribute present
both as a module default and in `ENGINE_DEFAULT_ARGS` but absent from the
explicit configuration, the global default wins.  For `paging`, declared
`True` by the module and `False` in the global table and absent from the
configuration, the adapter produced by `load_engine` carries the module's
`True`, not the global default `False`. -/
theorem C1_global_default_loses_counterexample :
    lookupA (ENGINE_DEFAULT_ARGS S0) "paging" = some (vBool false) ∧
    getAttr modPagingTrue "paging" = some (vBool true) ∧
    getAttr cfgPlain "paging" = none ∧
    (loadedEngine (load_engine S0 [] mlNone lmPaging cfgPlain).1).bind
      (fun e => getAttr e "paging") = some (vBool true) := by
  refine ⟨rfl, rfl, rfl, ?_⟩
  decide

/-- C1 (amended): `update_engine_attributes` merges with the precedence
global default table < capability-provider module defaults < explicit
configuration fields: an explicitly configured attribute keeps its
configured value, an attribute absent from the configuration keeps the
module's default, and an attribute absent from both falls back to
`ENGINE_DEFAULT_ARGS` (the special-cased `categories` and `about` fields
aside). -/
theorem C1_merge_precedence (S : Settings) (engine_mod engine_data : AttrMap)
    (attr : String) (hnd : (engine_data.map Prod.fst).Nodup)
    (hc : attr ≠ "categories") (ha : attr ≠ "about") :
    getAttr (update_engine_attributes S engine_mod engine_data) attr =
      (match getAttr engine_data attr with
       | some v => some v
       | none =>
         match getAttr engine_mod attr with
         | some v => some v
         | none => lookupA (ENGINE_DEFAULT_ARGS S) attr) := by
  simp only [update_engine_attributes]
  cases h1 : getAttr engine_data attr with
  | some v =>
    exact foldl_defaults_keep _ _ _ _ (foldl_apply_mem _ _ _ _ hnd h1 hc ha)
  | none =>
    have hmem := getAttr_none_not_mem _ _ h1
    cases h2 : getAttr engine_mod attr with
    | some v =>
      have hf : getAttr (engine_data.foldl apply_engine_param engine_mod) attr = some v :=
        (foldl_apply_not_mem _ _ _ hmem).trans h2
      exact foldl_defaults_keep _ _ _ _ hf
    | none =>
      have hf : getAttr (engine_data.foldl apply_engine_param engine_mod) attr = none :=
        (foldl_apply_not_mem _ _ _ hmem).trans h2
      exact foldl_defaults_fill _ _ _ hf

/-- C1 (witness): the precedence theorem applied at the concrete
counterexample inputs. -/
theorem C1_merge_precedence_witness :
    getAttr (update_engine_attributes S0 modPagingTrue cfgPlain) "paging" =
      (match getAttr cfgPlain "paging" with
       | some v => some v
       | none =>
         match getAttr modPagingTrue "paging" with
         | some v => some v
         | none => lookupA (ENGINE_DEFAULT_ARGS S0) "paging") :=
  C1_merge_precedence S0 modPagingTrue cfgPlain "paging" (by decide) (by decide) (by decide)

/-! ### C2 : single-language narrowing failure is not recoverable -/

/-- C2 (counterexample): the claim states the adapter with an unsupported
fixed `language` value is rejected while `load_engines` continues and
registers the remaining adapters.  On the code, the `ValueError` raised by
`set_language_attributes` is outside the `try` of `load_engine`, so
`load_engines` over `[cfgBadLanguage, cfgGood]` ends with the uncaught
error and registers nothing, although `cfgGood` alone registers fine. -/
theorem C2_recoverable_counterexample :
    load_engines S0 elBad mlNone lmEmptyMod [cfgBadLanguage, cfgGood] =
      .uncaught (valueErrorMsg "bad" "xx") ∧
    outcomeEngineNames (load_engines S0 elBad mlNone lmEmptyMod [cfgBadLanguage, cfgGood]) =
      none ∧
    outcomeEngineNames (load_engines S0 elBad mlNone lmEmptyMod [cfgGood]) =
      some ["good"] := by
  decide

/-- C2 (amended): a legacy flat adapter declaring a fixed `language` value
outside its supported set makes `set_language_attributes` raise a
`ValueError`; `load_engine` does not catch it, so `load_engines`
terminates with the unhandled error and the adapters after the failing one
are never registered. -/
theorem C2_single_language_failure_aborts (S : Settings) (EL : List (String × LangData))
    (ml : String → Option String) (lm : String → Except PyExc AttrMap)
    (engine cfg d : AttrMap) (codes : List String) (l nm m : String)
    (rest : List AttrMap) (st : RegistryState)
    (h1 : lookupLangData EL engine = some (.flatList codes))
    (h2 : codes.isEmpty = false)
    (h3 : getAttr engine "language" = some (vStr l))
    (h4 : l ∉ codes)
    (h5 : getAttr engine "name" = some (vStr nm))
    (hx : load_engine S EL ml lm cfg = (.exn m, d)) :
    set_language_attributes EL ml engine = .error (valueErrorMsg nm l) ∧
    load_engines_aux S EL ml lm (cfg :: rest) st = .uncaught m := by
  constructor
  · have hf : ldFalsy (.flatList codes) = false := by simpa [ldFalsy] using h2
    have g1 : getAttr (setAttr (setAttr engine "supported_languages"
        (vLang (.flatList codes))) "language_support"
        (vBool (decide (0 < ldLen (.flatList codes))))) "language" = some (vStr l) := by
      rw [getAttr_setAttr_ne _ _ _ _ (by decide), getAttr_setAttr_ne _ _ _ _ (by decide),
        h3]
    have g2 : ldHasCode (.flatList codes) l = false := by
      simpa [ldHasCode] using h4
    have g3 : getStr (setAttr (setAttr engine "supported_languages"
        (vLang (.flatList codes))) "language_support"
        (vBool (decide (0 < ldLen (.flatList codes))))) "name" = some nm := by
      unfold getStr
      rw [getAttr_setAttr_ne _ _ _ _ (by decide), getAttr_setAttr_ne _ _ _ _ (by decide),
        h5]
    simp only [set_language_attributes, h1, hf, Bool.false_eq_true, if_false, g1, g2, g3]
    rfl
  · simp [load_engines_aux, hx]

/-- C2 (witness): the amended theorem applied at the concrete failing
input. -/
theorem C2_single_language_failure_aborts_witness :
    set_language_attributes elBad mlNone cfgBadLanguage =
      .error (valueErrorMsg "bad" "xx") ∧
    load_engines_aux S0 elBad mlNone lmEmptyMod [cfgBadLanguage, cfgGood]
      initialRegistry = .uncaught (valueErrorMsg "bad" "xx") :=
  C2_single_language_failure_aborts S0 elBad mlNone lmEmptyMod cfgBadLanguage
    cfgBadLanguage cfgBadLanguage ["en"] "xx" "bad" (valueErrorMsg "bad" "xx")
    [cfgGood] initialRegistry (by decide) (by decide) (by decide) (by decide)
    (by decide) (by decide)

/-! ### C3 : uniqueness of names and shortcuts in the registry -/

theorem nodup_append_singleton (l : List String) (a : String) (h1 : l.Nodup)
    (h2 : a ∉ l) : (l ++ [a]).Nodup := by
  rw [List.nodup_append]
  exact ⟨h1, List.nodup_singleton a, fun x hx hy => h2 (List.mem_singleton.mp hy ▸ hx)⟩

theorem register_engine_some (st st' : RegistryState) (e : AttrMap)
    (h : register_engine st e = some st') :
    st'.engines.map Prod.fst = st.engines.map Prod.fst ++ [(getStr e "name").getD ""] ∧
    (getStr e "name").getD "" ∉ st.engines.map Prod.fst ∧
    st'.engine_shortcuts.map Prod.fst =
      st.engine_shortcuts.map Prod.fst ++ [(getStr e "shortcut").getD ""] ∧
    (getStr e "shortcut").getD "" ∉ st.engine_shortcuts.map Prod.fst := by
  simp only [register_engine] at h
  by_cases h1 : (getStr e "name").getD "" ∈ st.engines.map Prod.fst
  · simp [h1] at h
  · by_cases h2 : (getStr e "shortcut").getD "" ∈ st.engine_shortcuts.map Prod.fst
    · simp [h1, h2] at h
    · simp only [h1, h2, if_neg, if_false, Option.some.injEq] at h
      refine ⟨?_, h1, ?_, h2⟩ <;> rw [← h] <;> simp

theorem load_engines_aux_nodup (S : Settings) (EL : List (String × LangData))
    (ml : String → Option String) (lm : String → Except PyExc AttrMap) :
    ∀ (l : List AttrMap) (st st' : RegistryState),
    (st.engines.map Prod.fst).Nodup → (st.engine_shortcuts.map Prod.fst).Nodup →
    load_engines_aux S EL ml lm l st = .ok st' →
    (st'.engines.map Prod.fst).Nodup ∧ (st'.engine_shortcuts.map Prod.fst).Nodup := by
  intro l
  induction l with
  | nil =>
    intro st st' h1 h2 h
    simp only [load_engines_aux, LoadOutcome.ok.injEq] at h
    exact h ▸ ⟨h1, h2⟩
  | cons d rest ih =>
    intro st st' h1 h2 h
    simp only [load_engines_aux] at h
    cases hr : (load_engine S EL ml lm d).1 with
    | ok e =>
      rw [hr] at h
      dsimp only at h
      cases hreg : register_engine st e with
      | none => rw [hreg] at h; simp at h
      | some st2 =>
        rw [hreg] at h
        obtain ⟨he, hn, hs, hm⟩ := register_engine_some st st2 e hreg
        exact ih st2 st' (he ▸ nodup_append_singleton _ _ h1 hn)
          (hs ▸ nodup_append_singleton _ _ h2 hm) h
    | skip =>
      rw [hr] at h
      exact ih st st' h1 h2 h
    | fatal => rw [hr] at h; simp at h
    | exn m => rw [hr] at h; simp at h

/-- C3: after a successful `load_engines`, the registered names and the
registered shortcuts are each free of duplicates, and `register_engine`
aborts (`sys.exit(1)`, rendered `none`) whenever the adapter's name or
shortcut is already present, so the registry never holds two adapters
sharing a name or a shortcut. -/
theorem C3_registry_uniqueness (S : Settings) (EL : List (String × LangData))
    (ml : String → Option String) (lm : String → Except PyExc AttrMap)
    (l : List AttrMap) (st st0 : RegistryState) (e : AttrMap)
    (h : load_engines S EL ml lm l = .ok st)
    (hd : (getStr e "name").getD "" ∈ st0.engines.map Prod.fst ∨
      (getStr e "shortcut").getD "" ∈ st0.engine_shortcuts.map Prod.fst) :
    (st.engines.map Prod.fst).Nodup ∧ (st.engine_shortcuts.map Prod.fst).Nodup ∧
    register_engine st0 e = none := by
  have hnod := load_engines_aux_nodup S EL ml lm l initialRegistry st
    (by simp [initialRegistry]) (by simp [initialRegistry]) h
  refine ⟨hnod.1, hnod.2, ?_⟩
  simp only [register_engine]
  by_cases h1 : (getStr e "name").getD "" ∈ st0.engines.map Prod.fst
  · rw [if_pos h1]
  · rcases hd with hd | hd
    · exact absurd hd h1
    · rw [if_neg h1, if_pos hd]

/-- C3 (witness): the uniqueness theorem applied to the one-adapter load
and a registry already holding the name `dummy`. -/
theorem C3_registry_uniqueness_witness :
    (((outcomeRegistry (load_engines S0 [] mlNone lmEmptyMod [cfgPlain])).engines.map
      Prod.fst).Nodup ∧
     ((outcomeRegistry (load_engines S0 [] mlNone lmEmptyMod
      [cfgPlain])).engine_shortcuts.map Prod.fst).Nodup ∧
     register_engine regDupName [("name", vStr "dummy")] = none) :=
  C3_registry_uniqueness S0 [] mlNone lmEmptyMod [cfgPlain]
    (outcomeRegistry (load_engines S0 [] mlNone lmEmptyMod [cfgPlain])) regDupName
    [("name", vStr "dummy")] (by decide) (Or.inl (by decide))

/-! ### C4 : the synthetic `other` category -/

/-- C4 (counterexample): the claim states the adapter's category list
contains exactly one occurrence of `other` and that the append is
idempotent over repeated `load_engine` calls.  An adapter whose merged
category list is `["other"]` (sharing no member with the tab set
`["general"]`) ends with two occurrences; and because the appended list is
the configuration's own list, a second `load_engine` on the updated
configuration of a `["news"]` adapter appends a second `other` as well. -/
theorem C4_exactly_one_other_counterexample :
    ((["other"] : List String).any (fun c => decide (c ∈ S0.categories_as_tabs)) = false) ∧
    (loadedEngine (load_engine S0 [] mlNone lmEmptyMod cfgCatsOther).1).map
      (fun e => getCats e) = some ["other", "other"] ∧
    (loadedEngine (load_engine S0 [] mlNone lmEmptyMod cfgCatsNews).1).map
      (fun e => getCats e) = some ["news", "other"] ∧
    (loadedEngine (load_engine S0 [] mlNone lmEmptyMod
      (load_engine S0 [] mlNone lmEmptyMod cfgCatsNews).2).1).map
      (fun e => (getCats e).count "other") = some 2 := by
  decide

/-- C4 (amended): when the merged category list shares no member with the
tab-category set and does not already contain `other`, the appended list
contains exactly one `other` entry; the append is not idempotent — applied
a second time (as happens on a repeated `load_engine` of the same
configuration, whose category list the engine namespace aliases) it yields
two occurrences. -/
theorem C4_append_other (tabs cats : List String)
    (h1 : cats.any (fun c => decide (c ∈ tabs)) = false)
    (h2 : OTHER_CATEGORY ∉ tabs) (h3 : OTHER_CATEGORY ∉ cats) :
    (append_other_category tabs cats).count OTHER_CATEGORY = 1 ∧
    (append_other_category tabs (append_other_category tabs cats)).count
      OTHER_CATEGORY = 2 := by
  have hfirst : append_other_category tabs cats = cats ++ [OTHER_CATEGORY] := by
    simp [append_other_category, h1]
  have hcount0 : cats.count OTHER_CATEGORY = 0 := List.count_eq_zero.mpr h3
  have hcount1 : (cats ++ [OTHER_CATEGORY]).count OTHER_CATEGORY = 1 := by
    simp [List.count_append, hcount0]
  constructor
  · rw [hfirst]
    exact hcount1
  · have h1' : (cats ++ [OTHER_CATEGORY]).any (fun c => decide (c ∈ tabs)) = false := by
      simp only [List.any_append, h1, Bool.false_or, List.any_cons, List.any_nil,
        Bool.or_false]
      exact decide_eq_false h2
    have hsecond : append_other_category tabs (cats ++ [OTHER_CATEGORY]) =
        (cats ++ [OTHER_CATEGORY]) ++ [OTHER_CATEGORY] := by
      simp [append_other_category, h1']
    rw [hfirst, hsecond]
    simp [List.count_append, hcount0]

/-- C4 (witness): the amended theorem at the tab set `["general"]` and the
category list `["news"]`. -/
theorem C4_append_other_witness :
    (append_other_category ["general"] ["news"]).count OTHER_CATEGORY = 1 ∧
    (append_other_category ["general"]
      (append_other_category ["general"] ["news"])).count OTHER_CATEGORY = 2 :=
  C4_append_other ["general"] ["news"] (by decide) (by decide) (by decide)

/-! ### C5 : monotonicity of the language-coverage threshold -/

theorem filter_sublist_of_imp {α : Type} (p q : α → Bool)
    (h : ∀ a, p a = true → q a = true) :
    ∀ l : List α, (l.filter p).Sublist (l.filter q) := by
  intro l
  induction l with
  | nil => simp
  | cons a l ih =>
    simp only [List.filter_cons]
    cases hp : p a with
    | true =>
      rw [h a hp]
      exact ih.cons₂ a
    | false =>
      cases hq : q a with
      | true => exact ih.cons a
      | false => exact ih

/-- C5: for a fixed coverage table and fixed registered adapters, raising
`min_engines_per_lang` from `t1` to `t2 ≥ t1` only shrinks the set of
languages retained by the language-level filter: the `t2` survivors are a
sublist of the `t1` survivors, and their number never increases. -/
theorem C5_threshold_monotone (t1 t2 : Nat) (engines : List (String × AttrMap))
    (all_languages : LangTable) (h : t1 ≤ t2) :
    (filtered_languages t2 (main_engines engines) all_languages).Sublist
      (filtered_languages t1 (main_engines engines) all_languages) ∧
    (filtered_languages t2 (main_engines engines) all_languages).length ≤
      (filtered_languages t1 (main_engines engines) all_languages).length := by
  have hsub :
      (filtered_languages t2 (main_engines engines) all_languages).Sublist
        (filtered_languages t1 (main_engines engines) all_languages) := by
    apply filter_sublist_of_imp
    intro a ha
    rcases Bool.or_eq_true_iff.mp ha with hc | hm
    · exact Bool.or_eq_true_iff.mpr (Or.inl (decide_eq_true
        (le_trans h (of_decide_eq_true hc))))
    · exact Bool.or_eq_true_iff.mpr (Or.inr hm)
  exact ⟨hsub, hsub.length_le⟩

/-- C5 (witness): the monotonicity theorem at thresholds 1 and 2 on a
one-language table. -/
theorem C5_threshold_monotone_witness :
    (filtered_languages 2 (main_engines enginesDe) tableDe).Sublist
      (filtered_languages 1 (main_engines enginesDe) tableDe) ∧
    (filtered_languages 2 (main_engines enginesDe) tableDe).length ≤
      (filtered_languages 1 (main_engines enginesDe) tableDe).length :=
  C5_threshold_monotone 1 2 enginesDe tableDe (by decide)

/-! ### C6 : every surviving language emits at least one entry -/

theorem map_fst_copy (entry : LangEntry) (l : List (String × CountryEntry)) :
    (l.map (fun p => (p.1, copy_lang_data entry p.2.country_name))).map Prod.fst =
      l.map Prod.fst := by
  simp [List.map_map]

/-- C6: for a language whose country keys differ from the bare code (the
table invariant), the country phase of `filter_language_list` emits,
writing `F` for the variants meeting `min_engines_per_country`: the bare
code alone or the likely-region code when `F` is empty, exactly the one
variant when `F` is a singleton, and all of `F` plus the bare code
otherwise — in every case at least one entry. -/
theorem C6_surviving_language_emits (t : Nat) (likely : String → Option String)
    (lang : String) (entry : LangEntry)
    (hk : lang ∉ entry.countries.map Prod.fst) :
    (filter_countries_for_lang t likely lang entry).map Prod.fst =
      (if ((entry.countries.filter
            (fun p => decide (t ≤ p.2.counter.length))).map Prod.fst).length = 0 then
         [(likely_lang_country likely lang).getD lang]
       else if ((entry.countries.filter
            (fun p => decide (t ≤ p.2.counter.length))).map Prod.fst).length = 1 then
         (entry.countries.filter (fun p => decide (t ≤ p.2.counter.length))).map Prod.fst
       else ((entry.countries.filter
            (fun p => decide (t ≤ p.2.counter.length))).map Prod.fst) ++ [lang]) ∧
    filter_countries_for_lang t likely lang entry ≠ [] := by
  have hsubF : (entry.countries.filter
      (fun p => decide (t ≤ p.2.counter.length))).Sublist entry.countries :=
    List.filter_sublist _
  have hlang : lang ∉ (entry.countries.filter
      (fun p => decide (t ≤ p.2.counter.length))).map Prod.fst :=
    fun hm => hk ((hsubF.map Prod.fst).subset hm)
  simp only [filter_countries_for_lang]
  cases hF : entry.countries.filter (fun p => decide (t ≤ p.2.counter.length)) with
  | nil =>
    simp only [hF, List.map_nil, List.length_nil, List.isEmpty_nil]
    cases hl : likely_lang_country likely lang <;> simp [hl]
  | cons x xs =>
    cases xs with
    | nil =>
      simp only [hF, List.map_cons, List.map_nil]
      simp
    | cons y ys =>
      rw [hF] at hlang
      have happ := assocSet_not_mem_append
        ((x :: y :: ys).map (fun p => (p.1, copy_lang_data entry p.2.country_name)))
        lang (copy_lang_data entry none)
        (by rw [map_fst_copy]; exact hlang)
      simp only [hF, List.map_cons, List.length_cons]
      simp only [List.map_cons] at happ
      simp [happ, map_fst_copy entry ys]

/-- C6 (witness): the emission theorem applied to the aggregated `de`
entry with `min_engines_per_country = 2`. -/
theorem C6_surviving_language_emits_witness :
    (filter_countries_for_lang 2 likelyDe "de" entryDe).map Prod.fst =
      (if ((entryDe.countries.filter
            (fun p => decide (2 ≤ p.2.counter.length))).map Prod.fst).length = 0 then
         [(likely_lang_country likelyDe "de").getD "de"]
       else if ((entryDe.countries.filter
            (fun p => decide (2 ≤ p.2.counter.length))).map Prod.fst).length = 1 then
         (entryDe.countries.filter (fun p => decide (2 ≤ p.2.counter.length))).map Prod.fst
       else ((entryDe.countries.filter
            (fun p => decide (2 ≤ p.2.counter.length))).map Prod.fst) ++ ["de"]) ∧
    filter_countries_for_lang 2 likelyDe "de" entryDe ≠ [] :=
  C6_surviving_language_emits 2 likelyDe "de" entryDe (by decide)

/-! ### C7 : the three-adapter `de` scenario -/

/-- C7: with the three adapters reporting `{"de","de-AT"}`, `{"de"}` and
`{"de-DE"}`, the aggregated `de` entry has coverage-set size 3 and
survives the language filter at `min_engines_per_lang = 2`; each country
variant has coverage 1, so at `min_engines_per_country = 2` none survives
and the likely-region fallback `de-DE` is the sole emitted code. -/
theorem C7_de_scenario :
    (join_language_lists parseDe enginesDe elDe).toOption = some tableDe ∧
    (lookupA tableDe "de").map (fun e => e.counter.length) = some 3 ∧
    (lookupA tableDe "de").map
      (fun e => e.countries.map (fun c => (c.1, c.2.counter.length))) =
      some [("de-AT", 1), ("de-DE", 1)] ∧
    "de" ∈ (filtered_languages 2 (main_engines enginesDe) tableDe).map Prod.fst ∧
    (filter_language_list 2 2 enginesDe likelyDe tableDe).map Prod.fst = ["de-DE"] := by
  decide

/-! ### C8 : the two module-load failure classes -/

/-- C8: when loading the provider module raises an exception, `load_engine`
aborts the process exactly for the fatal class (`SyntaxError`,
`KeyboardInterrupt`, `SystemExit`, `SystemError`, `ImportError`,
`RuntimeError`) and skips just this adapter (returns `None`) for every
other exception, in which case `load_engines` continues with the remaining
list unchanged. -/
theorem C8_module_failure_classes (S : Settings) (EL : List (String × LangData))
    (ml : String → Option String) (lm : String → Except PyExc AttrMap)
    (data : AttrMap) (n m : String) (e : PyExc) (rest : List AttrMap)
    (st : RegistryState)
    (hn : getAttr data "name" = some (vStr n))
    (hu : underscoreIn n = false)
    (hl : pyLower n = n)
    (hm : getAttr data "engine" = some (vStr m))
    (he : lm m = .error e) :
    (load_engine S EL ml lm data).1 = (if isFatalExc e then .fatal else .skip) ∧
    load_engines_aux S EL ml lm (data :: rest) st =
      (if isFatalExc e then .exited else load_engines_aux S EL ml lm rest st) := by
  have hload : (load_engine S EL ml lm data).1 =
      (if isFatalExc e then .fatal else .skip) := by
    simp only [load_engine, hn, hu, hl, ne_eq, not_true_eq_false, if_false, hm, he,
      Bool.false_eq_true]
    cases hf : isFatalExc e <;> simp [hf]
  refine ⟨hload, ?_⟩
  simp only [load_engines_aux]
  rw [hload]
  cases hf : isFatalExc e <;> simp

/-- C8 (witness): the failure-class theorem at a loader raising the
non-fatal `AttributeError`. -/
theorem C8_module_failure_classes_witness :
    (load_engine S0 [] mlNone (fun _ => .error (.otherExc "AttributeError"))
      [("name", vStr "x"), ("engine", vStr "x")]).1 =
      (if isFatalExc (.otherExc "AttributeError") then .fatal else .skip) ∧
    load_engines_aux S0 [] mlNone (fun _ => .error (.otherExc "AttributeError"))
      ([("name", vStr "x"), ("engine", vStr "x")] :: []) initialRegistry =
      (if isFatalExc (.otherExc "AttributeError") then .exited
       else load_engines_aux S0 [] mlNone
        (fun _ => .error (.otherExc "AttributeError")) [] initialRegistry) :=
  C8_module_failure_classes S0 [] mlNone
    (fun _ => .error (.otherExc "AttributeError"))
    [("name", vStr "x"), ("engine", vStr "x")] "x" "x" (.otherExc "AttributeError")
    [] initialRegistry (by decide) (by decide) (by decide) (by decide) rfl

/-! ### C9 : an empty main-adapter set makes the language filter vacuous -/

/-- C9: when no registered adapter is a "main" adapter (category
`general`, truthy `supported_languages`, not disabled), the
all-main-adapters disjunct of the language-level filter is vacuously true,
so every language of the input table is retained whatever the coverage
threshold. -/
theorem C9_vacuous_main_filter (t : Nat) (engines : List (String × AttrMap))
    (all_languages : LangTable)
    (h : ∀ p ∈ engines, is_main_engine p = false) :
    filtered_languages t (main_engines engines) all_languages = all_languages := by
  have hm : main_engines engines = [] := by
    unfold main_engines
    rw [List.filter_eq_nil_iff.mpr (fun p hp => by simp [h p hp])]
    simp
  rw [hm]
  unfold filtered_languages
  apply List.filter_eq_self.mpr
  intro a _
  simp

/-- C9 (witness): the vacuous-filter theorem at threshold 12 over the C7
table, whose three registered adapters declare no categories and hence are
not main adapters. -/
theorem C9_vacuous_main_filter_witness :
    filtered_languages 12 (main_engines enginesDe) tableDe = tableDe :=
  C9_vacuous_main_filter 12 enginesDe tableDe (by decide)

/-! ### C10 : the unconditional wikipedia name-fallback index -/

/-- C10: when a short code new to the table fails the locale lookup,
`join_language_lists` unconditionally indexes
`engines_languages["wikipedia"]`: an input without that key fails with a
`KeyError` instead of recording null names, while the same input with the
key present (even with no matching entry) succeeds and records null
names. -/
theorem C10_wikipedia_fallback_partiality (parse : String → Option LocaleInfo)
    (n c : String) (eng : AttrMap)
    (hw : n ≠ "wikipedia")
    (ha : getAttr eng "language_aliases" = some (vDict []))
    (hp : parse c = none)
    (hs : shortCodeOf c = c) :
    join_language_lists parse [(n, eng)] [(n, .flatList [c])] =
      .error (.keyError "wikipedia") ∧
    join_language_lists parse [(n, eng), ("wikipedia", eng)]
      [("wikipedia", .flatDict []), (n, .flatList [c])] =
      .ok [(c, { name := none, english_name := none, counter := [n],
                 countries := [] })] := by
  constructor
  · simp [join_language_lists, join_one_code, getAliasesD, ha, hp, hs, hw, lookupA,
      wikiNames, ldCodes, throw, throwThe, MonadExceptOf.throw, Except.map]
  · simp [join_language_lists, join_one_code, getAliasesD, ha, hp, hs, hw, lookupA,
      wikiNames, ldCodes, updateEntry, addToSet, throw, throwThe, MonadExceptOf.throw,
      Except.map]

/-- C10 (witness): the partiality theorem at the unparsable code `zz`
reported by the registered engine `e1`. -/
theorem C10_wikipedia_fallback_partiality_witness :
    join_language_lists (fun _ => none) [("e1", engAliasEmpty)]
      [("e1", .flatList ["zz"])] = .error (.keyError "wikipedia") ∧
    join_language_lists (fun _ => none) [("e1", engAliasEmpty), ("wikipedia", engAliasEmpty)]
      [("wikipedia", .flatDict []), ("e1", .flatList ["zz"])] =
      .ok [("zz", { name := none, english_name := none, counter := ["e1"],
                    countries := [] })] :=
  C10_wikipedia_fallback_partiality (fun _ => none) "e1" "zz" engAliasEmpty
    (by decide) rfl rfl rfl

end SearXNG
